import Mathlib

/-!
# Verification of the chunky-monkey ingestion pipeline

A shallow embedding of the change-detection and paginated-ingestion core of
the repository:

* `detect_article_deltas` embeds the hash-based delta detection of
  src/main.py (lines 47-66): classify each Markdown file against the prior
  hash map as added / updated / skipped and build the new hash map.
* `mainRun` embeds the effect sequence of src/main.py `main` (lines 96-121):
  scrape, detect deltas, short-circuit when nothing changed, otherwise
  upload, rewrite the hash record and clean up.
* `find_markdown_files` embeds src/uploader.py line 59-60: the uploader
  collects every Markdown file in the articles directory, sorted by name.
* `fetchLoop` / `fetch_articles` embed the cursor-pagination loop of
  src/scraper.py `fetch_articles` (lines 77-149), with dedup by id,
  cycle guard and final dedup pass.
* `getWithRetries` embeds src/scraper.py `_get_with_retries` (lines 43-75).
* `slugify` and `save_articles_as_markdown` embed
  src/markdown_converter.py `slugify` (lines 92-105) and
  src/scraper.py `save_articles_as_markdown` (lines 33-41).
* `persistHashRecord` embeds the hash-record write of src/main.py
  (lines 115-117) as a sequence of filesystem operations.

Python dictionaries are embedded as association lists (first match wins on
lookup, in-place value replacement on update), Python file contents as
`String`, and the SHA-256 content hash as an abstract function parameter
`hashFn : String → String` (the theorems hold for every hash function).
-/

/-- Lookup in an association list embedding a Python dict: first matching
key wins (keys are unique by construction, as in a dict). -/
def alLookup : List (String × String) → String → Option String
  | [], _ => none
  | (k, v) :: rest, key => if k = key then some v else alLookup rest key

/-- Update of an association list embedding Python dict assignment
`d[key] = v`: replace the value in place if the key is present, otherwise
append the new binding at the end (dicts preserve insertion order). -/
def alInsert : List (String × String) → String → String → List (String × String)
  | [], key, v => [(key, v)]
  | (k, w) :: rest, key, v =>
    if k = key then (k, v) :: rest else (k, w) :: alInsert rest key v

/-- A Markdown file in the articles directory: its file name and its byte
content (embedded as a string). -/
structure MdFile where
  name : String
  content : String
deriving DecidableEq, Repr

/-- Recursive core of `detect_article_deltas` (src/main.py lines 53-66):
walk the Markdown files of the articles directory in order; classify each
file against `prev` (the prior hash map) as added (name absent), updated
(name present, stored hash differs) or skipped (stored hash equal), and
thread the accumulating new hash map `acc`, which starts as a copy of
`prev` and receives `new_hashes[name] = h` for every file. -/
def detectGo (hashFn : String → String) (prev : List (String × String)) :
    List MdFile → List (String × String) →
    List MdFile × List MdFile × List MdFile × List (String × String)
  | [], acc => ([], [], [], acc)
  | f :: rest, acc =>
    let h := hashFn f.content
    let r := detectGo hashFn prev rest (alInsert acc f.name h)
    match alLookup prev f.name with
    | none => (f :: r.1, r.2.1, r.2.2.1, r.2.2.2)
    | some h0 =>
      if h0 = h then (r.1, r.2.1, f :: r.2.2.1, r.2.2.2)
      else (r.1, f :: r.2.1, r.2.2.1, r.2.2.2)

/-- Embedding of `detect_article_deltas` (src/main.py lines 47-66): returns
`(added, updated, skipped, new_hashes)` for the given files and prior hash
map.  `hashFn` stands for SHA-256 applied to the file content. -/
def detect_article_deltas (hashFn : String → String)
    (prev : List (String × String)) (files : List MdFile) :
    List MdFile × List MdFile × List MdFile × List (String × String) :=
  detectGo hashFn prev files prev

/-- The `added` component of `detect_article_deltas`. -/
def deltaAdded (hashFn : String → String) (prev : List (String × String))
    (files : List MdFile) : List MdFile :=
  (detect_article_deltas hashFn prev files).1

/-- The `updated` component of `detect_article_deltas`. -/
def deltaUpdated (hashFn : String → String) (prev : List (String × String))
    (files : List MdFile) : List MdFile :=
  (detect_article_deltas hashFn prev files).2.1

/-- The `skipped` component of `detect_article_deltas`. -/
def deltaSkipped (hashFn : String → String) (prev : List (String × String))
    (files : List MdFile) : List MdFile :=
  (detect_article_deltas hashFn prev files).2.2.1

/-- The `new_hashes` component of `detect_article_deltas`. -/
def deltaHashes (hashFn : String → String) (prev : List (String × String))
    (files : List MdFile) : List (String × String) :=
  (detect_article_deltas hashFn prev files).2.2.2

/-- Observable effects of one `main` run (src/main.py lines 96-121), in
program order: run the scraper subprocess, possibly run the uploader
subprocess, possibly rewrite the hash-record file, possibly delete the
Markdown files. -/
inductive Effect where
  | runScraper
  | runUploader
  | writeHashRecord (hashes : List (String × String))
  | cleanupArticles
deriving DecidableEq, Repr

/-- Embedding of `main` (src/main.py lines 96-121) as its effect trace,
given the prior hash map and the Markdown files the scraper materialized:
after delta detection, if `not (added or updated)` the run returns at once
(line 104-106); otherwise it runs the uploader, rewrites the hash record
with `new_hashes` and cleans up the articles directory. -/
def mainRun (hashFn : String → String) (prev : List (String × String))
    (files : List MdFile) : List Effect :=
  if deltaAdded hashFn prev files = [] ∧ deltaUpdated hashFn prev files = [] then
    [Effect.runScraper]
  else
    [Effect.runScraper, Effect.runUploader,
     Effect.writeHashRecord (deltaHashes hashFn prev files),
     Effect.cleanupArticles]

/-- Lexicographic comparison of file names by their character sequences,
embedding Python's string ordering used by `sorted`. -/
def nameLe (a b : String) : Bool := decide (a.data < b.data) || a == b

/-- Insert a file into a name-sorted list (auxiliary for the embedding of
Python's `sorted`). -/
def insertByName (f : MdFile) : List MdFile → List MdFile
  | [] => [f]
  | g :: rest =>
    if nameLe f.name g.name then f :: g :: rest else g :: insertByName f rest

/-- Embedding of `find_markdown_files` (src/uploader.py lines 59-60): the
uploader's upload set is every Markdown file currently in the articles
directory, sorted by name — not the Added/Updated subset computed by delta
detection. -/
def find_markdown_files (files : List MdFile) : List MdFile :=
  files.foldr insertByName []

/-- One raw record fetched from the knowledge-base API (an `article` dict
in src/scraper.py): its optional `id` (absent models `article.get("id")`
returning `None`) and its optional `title`.  All other fields play no role
in pagination, dedup or naming and are carried by the abstract renderer. -/
structure Article where
  id : Option String
  title : Option String
deriving DecidableEq, Repr

/-- One parsed page of the API response (src/scraper.py lines 102-117):
the `articles` field (`none` models a missing or non-list field, which
raises), the `meta.has_more` flag and the `links.next` URL (`none` models
a missing link; the empty string models a present-but-falsy value). -/
structure Page where
  articles : Option (List Article)
  has_more : Bool
  next : Option String
deriving DecidableEq, Repr

/-- Result of retrieving and parsing one page: `success` when
`_get_with_retries` returned and the body parsed to a dict, `failure` when
any exception was raised at that stage (HTTP failure, JSON parse failure,
non-dict body — src/scraper.py lines 87-100). -/
inductive PageFetch where
  | success (p : Page)
  | failure
deriving DecidableEq, Repr

/-- Embedding of the per-page dedup loop of src/scraper.py lines 107-112
(and of the final dedup pass, lines 139-146): walk the articles in order,
drop any article whose id is absent, drop any article whose id is already
in `seen`, otherwise keep it and extend `seen`.  Returns the kept articles
in order together with the extended `seen` list. -/
def addArticles (seen : List String) : List Article → List Article × List String
  | [] => ([], seen)
  | a :: rest =>
    match a.id with
    | none => addArticles seen rest
    | some aid =>
      if aid ∈ seen then addArticles seen rest
      else
        let r := addArticles (seen ++ [aid]) rest
        (a :: r.1, r.2)

/-- The final dedup pass of `fetch_articles` (src/scraper.py lines
139-146), started from an empty `seen` set. -/
def dedupAll (l : List Article) : List Article := (addArticles [] l).1

/-- Python truthiness of the `next_url` value (src/scraper.py line 122):
`None` and the empty string are falsy. -/
def nextTruthy : Option String → Bool
  | none => false
  | some s => decide (s ≠ "")

/-- Outcome of `fetch_articles`: a returned record list, or a raised
exception. -/
inductive FetchOutcome where
  | ok (records : List Article)
  | err
deriving DecidableEq, Repr

/-- Embedding of the pagination loop of `fetch_articles` (src/scraper.py
lines 86-149).  `source` maps a URL to the retrieval result for that URL;
`fuel` bounds the number of iterations (the Python loop is unbounded, so a
`none` result means the loop ran longer than `fuel` pages); `results` and
`seen` are the loop state; `stream` is specification instrumentation
recording every article of every fetched page in fetch order, and takes no
part in control flow.  Each iteration: retrieve and parse the page (any
exception ends the run as `err`), raise if the `articles` field is missing,
dedup the page's articles into `results`, then stop on the cycle guard
(`next_url` truthy and equal to the URL just fetched), continue when
`has_more` and `next_url` are truthy, and otherwise stop; stopping returns
the final dedup pass over `results`. -/
def fetchLoop (source : String → PageFetch) :
    Nat → String → List Article → List String → List Article →
    Option (FetchOutcome × List Article)
  | 0, _, _, _, _ => none
  | fuel + 1, url, results, seen, stream =>
    match source url with
    | PageFetch.failure => some (FetchOutcome.err, stream)
    | PageFetch.success page =>
      match page.articles with
      | none => some (FetchOutcome.err, stream)
      | some arts =>
        let r := addArticles seen arts
        let results' := results ++ r.1
        let stream' := stream ++ arts
        if nextTruthy page.next = true ∧ page.next = some url then
          some (FetchOutcome.ok (dedupAll results'), stream')
        else if page.has_more = true ∧ nextTruthy page.next = true then
          fetchLoop source fuel (page.next.getD "") results' r.2 stream'
        else
          some (FetchOutcome.ok (dedupAll results'), stream')

/-- Embedding of `fetch_articles` (src/scraper.py lines 77-149), started at
the base URL with empty state. -/
def fetch_articles (source : String → PageFetch) (fuel : Nat) (url0 : String) :
    Option (FetchOutcome × List Article) :=
  fetchLoop source fuel url0 [] [] []

/-- An HTTP response as seen by `_get_with_retries`: the status code and
the optional numeric value of the Retry-After header. -/
structure HttpResponse where
  status : Nat
  retryAfter : Option Nat
deriving DecidableEq, Repr

/-- The `requests` library's `resp.ok`: true when the status is below
400. -/
def HttpResponse.respOk (r : HttpResponse) : Bool := decide (r.status < 400)

/-- Terminal outcome of `_get_with_retries`: a returned response, a
RuntimeError for too many 429s, a RuntimeError for too many 5xx, or a
RuntimeError for any other non-success status. -/
inductive GetResult where
  | success (r : HttpResponse)
  | tooMany429
  | tooMany5xx
  | httpError (status : Nat)
deriving DecidableEq, Repr

/-- Retry ceiling for HTTP 429 (src/scraper.py line 44). -/
def max_429_retries : Nat := 5

/-- Retry ceiling for HTTP 5xx (src/scraper.py line 45). -/
def max_5xx_retries : Nat := 5

/-- Embedding of the retry loop of `_get_with_retries` (src/scraper.py
lines 43-75).  `responses n` is the response to the (n+1)-st GET issued
for the URL.  `attempt` is the shared retry counter, `reqs` the number of
GETs issued so far, and `sleeps` records in order each duration passed to
`time.sleep` (the Retry-After value, default 5, on a 429; the exponential
backoff on a 5xx).  `fuel` bounds the unbounded Python loop: `none` means
it ran longer than `fuel` iterations.  One iteration: issue the GET; on
429 read Retry-After, bump `attempt`, raise once the ceiling is reached,
otherwise sleep and retry; on 5xx compute the backoff from the
pre-increment `attempt`, bump it, raise at the ceiling, otherwise sleep
and retry; on any other non-ok status raise; otherwise return the
response. -/
def getWithRetries (responses : Nat → HttpResponse) :
    Nat → Nat → Nat → List Nat → Option (GetResult × Nat × List Nat)
  | 0, _, _, _ => none
  | fuel + 1, attempt, reqs, sleeps =>
    let r := responses reqs
    if r.status = 429 then
      let ra := r.retryAfter.getD 5
      if max_429_retries ≤ attempt + 1 then
        some (GetResult.tooMany429, reqs + 1, sleeps)
      else
        getWithRetries responses fuel (attempt + 1) (reqs + 1) (sleeps ++ [ra])
    else if 500 ≤ r.status ∧ r.status < 600 then
      let delay := if attempt < max_5xx_retries then 2 ^ attempt else 16
      if max_5xx_retries ≤ attempt + 1 then
        some (GetResult.tooMany5xx, reqs + 1, sleeps)
      else
        getWithRetries responses fuel (attempt + 1) (reqs + 1) (sleeps ++ [delay])
    else if r.respOk = false then
      some (GetResult.httpError r.status, reqs + 1, sleeps)
    else
      some (GetResult.success r, reqs + 1, sleeps)

/-- Embedding of `_get_with_retries` started with fresh counters (attempt
0, no requests issued, no sleeps performed). -/
def get_with_retries (responses : Nat → HttpResponse) (fuel : Nat) :
    Option (GetResult × Nat × List Nat) :=
  getWithRetries responses fuel 0 0 []

/-- A character matched by the slug alphabet `[a-z0-9]`
(src/markdown_converter.py line 103). -/
def isSlugChar (c : Char) : Bool :=
  decide (('a' ≤ c ∧ c ≤ 'z') ∨ ('0' ≤ c ∧ c ≤ '9'))

/-- Embedding of the substitution `re.sub(r'[^a-z0-9]+', '_', slug)`
(src/markdown_converter.py line 103): each maximal run of characters
outside `[a-z0-9]` becomes a single underscore.  The boolean flag records
whether the previous character belonged to such a run (so the underscore
is emitted only at the run's start). -/
def collapseGo : Bool → List Char → List Char
  | _, [] => []
  | inRun, c :: rest =>
    if isSlugChar c then c :: collapseGo false rest
    else if inRun then collapseGo true rest
    else '_' :: collapseGo true rest

/-- Embedding of Python's `strip('_')` (src/markdown_converter.py line
104): drop leading and trailing underscores. -/
def stripUnderscores (l : List Char) : List Char :=
  ((l.dropWhile (fun c => c == '_')).reverse.dropWhile
    (fun c => c == '_')).reverse

/-- Embedding of `slugify` (src/markdown_converter.py lines 92-105):
lower-case the title, collapse non-alphanumeric runs to underscores, strip
underscores at both ends, and keep the first 50 characters. -/
def slugify (title : String) : String :=
  String.mk ((stripUnderscores (collapseGo false
    (title.data.map Char.toLower))).take 50)

/-- The file path written for the i-th article (0-based) in
`save_articles_as_markdown` (src/scraper.py lines 36-39): the title
defaults to `article_i` when the field is absent, and the file name falls
back to `article_i` again when the slug is empty (falsy).  No collision
disambiguation is applied. -/
def savePath (i : Nat) (a : Article) : String :=
  let title := a.title.getD ("article_" ++ toString i)
  let slug := slugify title
  "articles/" ++ (if slug = "" then "article_" ++ toString i else slug) ++ ".md"

/-- Embedding of `save_articles_as_markdown` (src/scraper.py lines 33-41)
as the ordered sequence of filesystem writes `(path, content)` it
performs; `render` stands for the external `article_to_markdown`
collaborator. -/
def save_articles_as_markdown (render : Article → String)
    (articles : List Article) : List (String × String) :=
  articles.enum.map (fun p => (savePath p.1 p.2, render p.2))

/-- Replay a sequence of writes over an initially empty directory: the
content at a path is that of the last write to it, if any. -/
def applyWrites (writes : List (String × String)) : String → Option String :=
  writes.foldl (fun fs w q => if q = w.1 then some w.2 else fs q) (fun _ => none)

/-- The fixed path of the persisted hash record (src/main.py line 34). -/
def hashRecordPath : String := "article_hashes.json"

/-- A filesystem operation observable during hash-record persistence:
opening a path in write mode (which truncates it to empty), or appending
data to an open file. -/
inductive FsOp where
  | openTrunc (path : String)
  | writeData (path : String) (data : String)
deriving DecidableEq, Repr

/-- Effect of one filesystem operation on a filesystem (a map from path to
optional content). -/
def fsApply (fs : String → Option String) : FsOp → String → Option String
  | FsOp.openTrunc p, q => if q = p then some "" else fs q
  | FsOp.writeData p d, q => if q = p then some ((fs p).getD "" ++ d) else fs q

/-- The filesystem states reachable after each successive operation of a
sequence, starting from `fs0`: the interruption points of the sequence. -/
def statesAfter (fs0 : String → Option String) :
    List FsOp → List (String → Option String)
  | [] => []
  | op :: rest =>
    let fs1 := fun q => fsApply fs0 op q
    fs1 :: statesAfter fs1 rest

/-- Embedding of the hash-record persistence step (src/main.py lines
116-117): `open(HASH_RECORD, "w")` truncates the record file in place,
then `json.dump` writes the serialized new map (`payload`) into it.  No
temporary file and no rename are involved. -/
def persistHashRecord (payload : String) : List FsOp :=
  [FsOp.openTrunc hashRecordPath, FsOp.writeData hashRecordPath payload]

/-- Modelled from the spec's words (the property claimed of persistence,
stated for comparison with `persistHashRecord`): a persistence sequence
replaces `path` atomically when, from every starting filesystem, every
state reachable during the sequence shows at `path` either the prior
content or the complete new `payload` — never a partially written map. -/
def persistAtomic (ops : List FsOp) (path : String) (payload : String) : Prop :=
  ∀ fs0 : String → Option String, ∀ fs ∈ statesAfter fs0 ops,
    fs path = fs0 path ∨ fs path = some payload

theorem alLookup_alInsert_self (m : List (String × String)) (k v : String) :
    alLookup (alInsert m k v) k = some v := by
  induction m with
  | nil => simp [alInsert, alLookup]
  | cons p rest ih =>
    obtain ⟨k0, v0⟩ := p
    by_cases h : k0 = k
    · subst h; simp [alInsert, alLookup]
    · simp [alInsert, alLookup, h, ih]

theorem alLookup_alInsert_ne (m : List (String × String)) (k v k' : String)
    (h : k' ≠ k) : alLookup (alInsert m k v) k' = alLookup m k' := by
  induction m with
  | nil =>
    have hne : ¬ k = k' := fun hk => h hk.symm
    simp [alInsert, alLookup, hne]
  | cons p rest ih =>
    obtain ⟨k0, v0⟩ := p
    by_cases h0 : k0 = k
    · subst h0
      have hne : ¬ k0 = k' := fun hk => h hk.symm
      simp [alInsert, alLookup, hne]
    · simp [alInsert, alLookup, h0, ih]

theorem mem_detectGo_added (hashFn : String → String)
    (prev : List (String × String)) (f : MdFile) :
    ∀ (l : List MdFile) (acc : List (String × String)),
      f ∈ (detectGo hashFn prev l acc).1 ↔
        f ∈ l ∧ alLookup prev f.name = none := by
  intro l
  induction l with
  | nil => intro acc; simp [detectGo]
  | cons g rest ih =>
    intro acc
    rcases hl : alLookup prev g.name with _ | h0
    · by_cases hf : f = g
      · subst hf; simp [detectGo, hl, ih]
      · simp [detectGo, hl, ih, hf]
    · by_cases he : h0 = hashFn g.content
      · by_cases hf : f = g
        · subst hf; simp [detectGo, hl, he, ih, hl]
        · simp [detectGo, hl, he, ih, hf]
      · by_cases hf : f = g
        · subst hf; simp [detectGo, hl, he, ih, hl]
        · simp [detectGo, hl, he, ih, hf]

theorem mem_detectGo_updated (hashFn : String → String)
    (prev : List (String × String)) (f : MdFile) :
    ∀ (l : List MdFile) (acc : List (String × String)),
      f ∈ (detectGo hashFn prev l acc).2.1 ↔
        f ∈ l ∧ ∃ h0, alLookup prev f.name = some h0 ∧ h0 ≠ hashFn f.content := by
  intro l
  induction l with
  | nil => intro acc; simp [detectGo]
  | cons g rest ih =>
    intro acc
    rcases hl : alLookup prev g.name with _ | h0
    · by_cases hf : f = g
      · subst hf; simp [detectGo, hl, ih]
      · simp [detectGo, hl, ih, hf]
    · by_cases he : h0 = hashFn g.content
      · by_cases hf : f = g
        · subst hf; simp [detectGo, hl, he, ih, hl]
        · simp [detectGo, hl, he, ih, hf]
      · by_cases hf : f = g
        · subst hf
          simp only [detectGo, hl, he, if_neg he, List.mem_cons, true_or,
            true_and, ih]
          simp [hl, he]
        · simp [detectGo, hl, he, ih, hf]

theorem mem_detectGo_skipped (hashFn : String → String)
    (prev : List (String × String)) (f : MdFile) :
    ∀ (l : List MdFile) (acc : List (String × String)),
      f ∈ (detectGo hashFn prev l acc).2.2.1 ↔
        f ∈ l ∧ alLookup prev f.name = some (hashFn f.content) := by
  intro l
  induction l with
  | nil => intro acc; simp [detectGo]
  | cons g rest ih =>
    intro acc
    rcases hl : alLookup prev g.name with _ | h0
    · by_cases hf : f = g
      · subst hf; simp [detectGo, hl, ih, hl]
      · simp [detectGo, hl, ih, hf]
    · by_cases he : h0 = hashFn g.content
      · by_cases hf : f = g
        · subst hf
          simp only [detectGo, hl, he, if_pos rfl, List.mem_cons, true_or,
            true_and, ih]
          simp [hl, he]
        · simp [detectGo, hl, he, ih, hf]
      · by_cases hf : f = g
        · subst hf; simp [detectGo, hl, he, ih, hl, he]
        · simp [detectGo, hl, he, ih, hf]

/-- C1: delta classification is exact and exhaustive.  For every file set
and prior hash map, a file of the current run is Added exactly when its
name is absent from the prior map, Updated exactly when the stored hash
differs from the freshly computed one, Skipped exactly when they agree,
and it lands in exactly one of the three classes
(src/main.py `detect_article_deltas`, lines 47-66). -/
theorem detect_article_deltas_classifies (hashFn : String → String)
    (prev : List (String × String)) (files : List MdFile) (f : MdFile)
    (hf : f ∈ files) :
    (f ∈ deltaAdded hashFn prev files ↔ alLookup prev f.name = none) ∧
    (f ∈ deltaUpdated hashFn prev files ↔
      ∃ h0, alLookup prev f.name = some h0 ∧ h0 ≠ hashFn f.content) ∧
    (f ∈ deltaSkipped hashFn prev files ↔
      alLookup prev f.name = some (hashFn f.content)) ∧
    ((f ∈ deltaAdded hashFn prev files ∧ f ∉ deltaUpdated hashFn prev files ∧
        f ∉ deltaSkipped hashFn prev files) ∨
     (f ∉ deltaAdded hashFn prev files ∧ f ∈ deltaUpdated hashFn prev files ∧
        f ∉ deltaSkipped hashFn prev files) ∨
     (f ∉ deltaAdded hashFn prev files ∧ f ∉ deltaUpdated hashFn prev files ∧
        f ∈ deltaSkipped hashFn prev files)) := by
  have ha := mem_detectGo_added hashFn prev f files prev
  have hu := mem_detectGo_updated hashFn prev f files prev
  have hs := mem_detectGo_skipped hashFn prev f files prev
  unfold deltaAdded deltaUpdated deltaSkipped detect_article_deltas
  refine ⟨by simp [ha, hf], by simp [hu, hf], by simp [hs, hf], ?_⟩
  rcases hl : alLookup prev f.name with _ | h0
  · exact Or.inl ⟨(ha.2 ⟨hf, hl⟩), by simp [hu, hl], by simp [hs, hl]⟩
  · by_cases he : h0 = hashFn f.content
    · subst he
      exact Or.inr (Or.inr ⟨by simp [ha, hl], by simp [hu, hl],
        hs.2 ⟨hf, hl⟩⟩)
    · exact Or.inr (Or.inl ⟨by simp [ha, hl], hu.2 ⟨hf, h0, hl, he⟩,
        by simp [hs, hl, he]⟩)

/-- Witness for C1 on a concrete run: one fresh file, one changed file and
one unchanged file against a two-entry prior hash map. -/
theorem detect_article_deltas_classifies_witness :
    (MdFile.mk "a.md" "x" ∈
        [MdFile.mk "a.md" "x", MdFile.mk "b.md" "y", MdFile.mk "c.md" "z"]) ∧
    ((MdFile.mk "a.md" "x" ∈ deltaAdded (fun s => s)
        [("b.md", "old"), ("c.md", "z")]
        [MdFile.mk "a.md" "x", MdFile.mk "b.md" "y", MdFile.mk "c.md" "z"] ↔
      alLookup [("b.md", "old"), ("c.md", "z")] "a.md" = none) ∧
     (MdFile.mk "a.md" "x" ∈ deltaUpdated (fun s => s)
        [("b.md", "old"), ("c.md", "z")]
        [MdFile.mk "a.md" "x", MdFile.mk "b.md" "y", MdFile.mk "c.md" "z"] ↔
      ∃ h0, alLookup [("b.md", "old"), ("c.md", "z")] "a.md" = some h0 ∧
        h0 ≠ (fun s : String => s) "x") ∧
     (MdFile.mk "a.md" "x" ∈ deltaSkipped (fun s => s)
        [("b.md", "old"), ("c.md", "z")]
        [MdFile.mk "a.md" "x", MdFile.mk "b.md" "y", MdFile.mk "c.md" "z"] ↔
      alLookup [("b.md", "old"), ("c.md", "z")] "a.md" =
        some ((fun s : String => s) "x")) ∧
     ((MdFile.mk "a.md" "x" ∈ deltaAdded (fun s => s)
          [("b.md", "old"), ("c.md", "z")]
          [MdFile.mk "a.md" "x", MdFile.mk "b.md" "y", MdFile.mk "c.md" "z"] ∧
       MdFile.mk "a.md" "x" ∉ deltaUpdated (fun s => s)
          [("b.md", "old"), ("c.md", "z")]
          [MdFile.mk "a.md" "x", MdFile.mk "b.md" "y", MdFile.mk "c.md" "z"] ∧
       MdFile.mk "a.md" "x" ∉ deltaSkipped (fun s => s)
          [("b.md", "old"), ("c.md", "z")]
          [MdFile.mk "a.md" "x", MdFile.mk "b.md" "y", MdFile.mk "c.md" "z"]) ∨
      (MdFile.mk "a.md" "x" ∉ deltaAdded (fun s => s)
          [("b.md", "old"), ("c.md", "z")]
          [MdFile.mk "a.md" "x", MdFile.mk "b.md" "y", MdFile.mk "c.md" "z"] ∧
       MdFile.mk "a.md" "x" ∈ deltaUpdated (fun s => s)
          [("b.md", "old"), ("c.md", "z")]
          [MdFile.mk "a.md" "x", MdFile.mk "b.md" "y", MdFile.mk "c.md" "z"] ∧
       MdFile.mk "a.md" "x" ∉ deltaSkipped (fun s => s)
          [("b.md", "old"), ("c.md", "z")]
          [MdFile.mk "a.md" "x", MdFile.mk "b.md" "y", MdFile.mk "c.md" "z"]) ∨
      (MdFile.mk "a.md" "x" ∉ deltaAdded (fun s => s)
          [("b.md", "old"), ("c.md", "z")]
          [MdFile.mk "a.md" "x", MdFile.mk "b.md" "y", MdFile.mk "c.md" "z"] ∧
       MdFile.mk "a.md" "x" ∉ deltaUpdated (fun s => s)
          [("b.md", "old"), ("c.md", "z")]
          [MdFile.mk "a.md" "x", MdFile.mk "b.md" "y", MdFile.mk "c.md" "z"] ∧
       MdFile.mk "a.md" "x" ∈ deltaSkipped (fun s => s)
          [("b.md", "old"), ("c.md", "z")]
          [MdFile.mk "a.md" "x", MdFile.mk "b.md" "y", MdFile.mk "c.md" "z"]))) :=
  ⟨by decide,
   detect_article_deltas_classifies (fun s => s)
     [("b.md", "old"), ("c.md", "z")]
     [MdFile.mk "a.md" "x", MdFile.mk "b.md" "y", MdFile.mk "c.md" "z"]
     (MdFile.mk "a.md" "x") (by decide)⟩

theorem detectGo_hashes (hashFn : String → String)
    (prev : List (String × String)) :
    ∀ (l : List MdFile) (acc : List (String × String)),
      (detectGo hashFn prev l acc).2.2.2 =
        l.foldl (fun m f => alInsert m f.name (hashFn f.content)) acc := by
  intro l
  induction l with
  | nil => intro acc; simp [detectGo]
  | cons g rest ih =>
    intro acc
    rcases hl : alLookup prev g.name with _ | h0
    · simp [detectGo, hl, ih]
    · by_cases he : h0 = hashFn g.content <;> simp [detectGo, hl, he, ih]

theorem alLookup_foldl_insert_notmem (hashFn : String → String) (k : String) :
    ∀ (l : List MdFile) (m : List (String × String)),
      (∀ f ∈ l, f.name ≠ k) →
      alLookup (l.foldl (fun m f => alInsert m f.name (hashFn f.content)) m) k =
        alLookup m k := by
  intro l
  induction l with
  | nil => intro m _; simp
  | cons g rest ih =>
    intro m hk
    have hg : g.name ≠ k := hk g (List.mem_cons_self g rest)
    have hrest : ∀ f ∈ rest, f.name ≠ k := fun f hf => hk f (List.mem_cons_of_mem g hf)
    calc alLookup ((g :: rest).foldl
            (fun m f => alInsert m f.name (hashFn f.content)) m) k
        = alLookup (rest.foldl (fun m f => alInsert m f.name (hashFn f.content))
            (alInsert m g.name (hashFn g.content))) k := by simp
      _ = alLookup (alInsert m g.name (hashFn g.content)) k := ih _ hrest
      _ = alLookup m k := alLookup_alInsert_ne _ _ _ _ (Ne.symm hg)

theorem alLookup_foldl_insert_mem (hashFn : String → String) (f : MdFile) :
    ∀ (l : List MdFile) (m : List (String × String)),
      (l.map MdFile.name).Nodup → f ∈ l →
      alLookup (l.foldl (fun m g => alInsert m g.name (hashFn g.content)) m)
          f.name = some (hashFn f.content) := by
  intro l
  induction l with
  | nil => intro m _ hf; exact absurd hf (List.not_mem_nil f)
  | cons g rest ih =>
    intro m hnd hf
    have hnd' : (rest.map MdFile.name).Nodup := (List.nodup_cons.mp hnd).2
    have hgrest : g.name ∉ rest.map MdFile.name := (List.nodup_cons.mp hnd).1
    rcases List.mem_cons.mp hf with hfg | hfr
    · subst hfg
      have hrest : ∀ p ∈ rest, p.name ≠ f.name := by
        intro p hp hpn
        exact hgrest (hpn ▸ List.mem_map_of_mem MdFile.name hp)
      calc alLookup ((f :: rest).foldl
              (fun m g => alInsert m g.name (hashFn g.content)) m) f.name
          = alLookup (rest.foldl (fun m g => alInsert m g.name (hashFn g.content))
              (alInsert m f.name (hashFn f.content))) f.name := by simp
        _ = alLookup (alInsert m f.name (hashFn f.content)) f.name :=
            alLookup_foldl_insert_notmem hashFn f.name rest _ hrest
        _ = some (hashFn f.content) := alLookup_alInsert_self _ _ _
    · simpa using ih (alInsert m g.name (hashFn g.content)) hnd' hfr

/-- C8: the new hash map returned by delta detection is the prior map
overridden with every current file's freshly computed hash; prior entries
whose name matches no current file are retained unchanged
(src/main.py `detect_article_deltas`, lines 49-66). -/
theorem detect_article_deltas_newHashMap (hashFn : String → String)
    (prev : List (String × String)) (files : List MdFile)
    (hnd : (files.map MdFile.name).Nodup) :
    (∀ f ∈ files, alLookup (deltaHashes hashFn prev files) f.name =
        some (hashFn f.content)) ∧
    (∀ k : String, (∀ f ∈ files, f.name ≠ k) →
        alLookup (deltaHashes hashFn prev files) k = alLookup prev k) := by
  have hh : deltaHashes hashFn prev files =
      files.foldl (fun m f => alInsert m f.name (hashFn f.content)) prev :=
    detectGo_hashes hashFn prev files prev
  constructor
  · intro f hf
    rw [hh]
    exact alLookup_foldl_insert_mem hashFn f files prev hnd hf
  · intro k hk
    rw [hh]
    exact alLookup_foldl_insert_notmem hashFn k files prev hk

/-- Witness for C8 on a concrete run: a fresh file and a changed file
against a prior map that also holds an entry for a vanished file. -/
theorem detect_article_deltas_newHashMap_witness :
    (([MdFile.mk "a.md" "x", MdFile.mk "b.md" "y"].map MdFile.name).Nodup) ∧
    ((∀ f ∈ [MdFile.mk "a.md" "x", MdFile.mk "b.md" "y"],
        alLookup (deltaHashes (fun s => s) [("b.md", "old"), ("gone.md", "h")]
          [MdFile.mk "a.md" "x", MdFile.mk "b.md" "y"]) f.name =
          some ((fun s : String => s) f.content)) ∧
     (∀ k : String, (∀ f ∈ [MdFile.mk "a.md" "x", MdFile.mk "b.md" "y"],
          f.name ≠ k) →
        alLookup (deltaHashes (fun s => s) [("b.md", "old"), ("gone.md", "h")]
          [MdFile.mk "a.md" "x", MdFile.mk "b.md" "y"]) k =
          alLookup [("b.md", "old"), ("gone.md", "h")] k)) :=
  ⟨by decide,
   detect_article_deltas_newHashMap (fun s => s)
     [("b.md", "old"), ("gone.md", "h")]
     [MdFile.mk "a.md" "x", MdFile.mk "b.md" "y"] (by decide)⟩

/-- C7: when delta detection yields zero Added and zero Updated files, the
run short-circuits — the uploader is never invoked and the hash-record
file is never rewritten (src/main.py lines 104-106). -/
theorem mainRun_short_circuit (hashFn : String → String)
    (prev : List (String × String)) (files : List MdFile)
    (ha : deltaAdded hashFn prev files = [])
    (hu : deltaUpdated hashFn prev files = []) :
    mainRun hashFn prev files = [Effect.runScraper] ∧
    Effect.runUploader ∉ mainRun hashFn prev files ∧
    ∀ m : List (String × String),
      Effect.writeHashRecord m ∉ mainRun hashFn prev files := by
  have hrun : mainRun hashFn prev files = [Effect.runScraper] := by
    simp [mainRun, ha, hu]
  refine ⟨hrun, ?_, ?_⟩
  · rw [hrun]; simp
  · intro m; rw [hrun]; simp

/-- Witness for C7 on a concrete run with one unchanged file: the prior map
already holds the file's hash, so nothing is added or updated. -/
theorem mainRun_short_circuit_witness :
    (deltaAdded (fun s => s) [("a.md", "x")] [MdFile.mk "a.md" "x"] = [] ∧
     deltaUpdated (fun s => s) [("a.md", "x")] [MdFile.mk "a.md" "x"] = []) ∧
    (mainRun (fun s => s) [("a.md", "x")] [MdFile.mk "a.md" "x"] =
        [Effect.runScraper] ∧
     Effect.runUploader ∉ mainRun (fun s => s) [("a.md", "x")]
        [MdFile.mk "a.md" "x"] ∧
     ∀ m : List (String × String), Effect.writeHashRecord m ∉
        mainRun (fun s => s) [("a.md", "x")] [MdFile.mk "a.md" "x"]) :=
  ⟨⟨by decide, by decide⟩,
   mainRun_short_circuit (fun s => s) [("a.md", "x")] [MdFile.mk "a.md" "x"]
     (by decide) (by decide)⟩

/-- C4 fails on the code: on a run whose dirty set is non-empty, the upload
step is invoked but uploads every Markdown file in the articles directory,
Skipped files included — `run_uploader` (src/main.py line 113) delegates to
src/uploader.py, whose `find_markdown_files` (lines 59-60, used at lines
174-181) collects all files and ignores the computed delta.  Here a.md is
Skipped (unchanged since the prior run) and b.md is Added, yet the upload
set handed to the content store is both files, not just b.md. -/
theorem mainRun_uploads_skipped_file :
    deltaSkipped (fun s => s) [("a.md", "same")]
        [MdFile.mk "a.md" "same", MdFile.mk "b.md" "fresh"] =
      [MdFile.mk "a.md" "same"] ∧
    deltaAdded (fun s => s) [("a.md", "same")]
        [MdFile.mk "a.md" "same", MdFile.mk "b.md" "fresh"] =
      [MdFile.mk "b.md" "fresh"] ∧
    Effect.runUploader ∈ mainRun (fun s => s) [("a.md", "same")]
        [MdFile.mk "a.md" "same", MdFile.mk "b.md" "fresh"] ∧
    find_markdown_files [MdFile.mk "a.md" "same", MdFile.mk "b.md" "fresh"] =
      [MdFile.mk "a.md" "same", MdFile.mk "b.md" "fresh"] ∧
    MdFile.mk "a.md" "same" ∈
      find_markdown_files [MdFile.mk "a.md" "same", MdFile.mk "b.md" "fresh"] := by
  refine ⟨by decide, by decide, by decide, by decide, by decide⟩

theorem addArticles_append :
    ∀ (xs ys : List Article) (seen : List String),
      addArticles seen (xs ++ ys) =
        ((addArticles seen xs).1 ++ (addArticles (addArticles seen xs).2 ys).1,
         (addArticles (addArticles seen xs).2 ys).2) := by
  intro xs
  induction xs with
  | nil => intro ys seen; simp [addArticles]
  | cons a rest ih =>
    intro ys seen
    rcases hid : a.id with _ | aid
    · simp [addArticles, hid, ih]
    · by_cases hmem : aid ∈ seen
      · simp [addArticles, hid, hmem, ih]
      · simp [addArticles, hid, hmem, ih]

theorem addArticles_self :
    ∀ (l : List Article) (seen : List String),
      addArticles seen (addArticles seen l).1 = addArticles seen l := by
  intro l
  induction l with
  | nil => intro seen; simp [addArticles]
  | cons a rest ih =>
    intro seen
    rcases hid : a.id with _ | aid
    · simp [addArticles, hid, ih]
    · by_cases hmem : aid ∈ seen
      · simp [addArticles, hid, hmem, ih]
      · simp [addArticles, hid, hmem, ih]

theorem addArticles_filter (i : String) :
    ∀ (l : List Article) (seen : List String),
      ((addArticles seen l).1).filter (fun a => decide (a.id = some i)) =
        if i ∈ seen then []
        else (l.filter (fun a => decide (a.id = some i))).take 1 := by
  intro l
  induction l with
  | nil => intro seen; by_cases hi : i ∈ seen <;> simp [addArticles, hi]
  | cons a rest ih =>
    intro seen
    rcases hid : a.id with _ | aid
    · by_cases hi : i ∈ seen <;> simp [addArticles, hid, ih, hi]
    · by_cases hmem : aid ∈ seen
      · by_cases hi : i ∈ seen
        · simp [addArticles, hid, hmem, ih, hi]
        · have hne : aid ≠ i := fun h => hi (h ▸ hmem)
          simp [addArticles, hid, hmem, ih, hi, hne]
      · by_cases hai : aid = i
        · subst hai
          simp [addArticles, hid, hmem, ih]
        · by_cases hi : i ∈ seen
          · have hi' : i ∈ seen ++ [aid] := List.mem_append_left _ hi
            simp [addArticles, hid, hmem, ih, hi, hi', hai]
          · have hi' : i ∉ seen ++ [aid] := by
              intro hmem2
              rcases List.mem_append.mp hmem2 with hcase | hcase
              · exact hi hcase
              · exact hai (List.mem_singleton.mp hcase).symm
            have hia : ¬ i = aid := fun hcase => hai hcase.symm
            simp [addArticles, hid, hmem, ih, hi, hi', hai, hia]

theorem addArticles_id_isSome :
    ∀ (l : List Article) (seen : List String) (a : Article),
      a ∈ (addArticles seen l).1 → a.id.isSome := by
  intro l
  induction l with
  | nil => intro seen a ha; simp [addArticles] at ha
  | cons b rest ih =>
    intro seen a ha
    rcases hid : b.id with _ | bid
    · exact ih seen a (by simpa [addArticles, hid] using ha)
    · by_cases hmem : bid ∈ seen
      · exact ih seen a (by simpa [addArticles, hid, hmem] using ha)
      · rcases List.mem_cons.mp (by simpa [addArticles, hid, hmem] using ha)
          with h | h
        · subst h; simp [hid]
        · exact ih (seen ++ [bid]) a h

theorem addArticles_filter_id :
    ∀ (l : List Article) (seen : List String),
      addArticles seen (l.filter (fun a => a.id.isSome)) =
        addArticles seen l := by
  intro l
  induction l with
  | nil => intro seen; simp
  | cons a rest ih =>
    intro seen
    rcases hid : a.id with _ | aid
    · simp [addArticles, hid, ih]
    · by_cases hmem : aid ∈ seen
      · simp [addArticles, hid, hmem, ih]
      · simp [addArticles, hid, hmem, ih]

theorem fetchLoop_ok_dedup (source : String → PageFetch) :
    ∀ (fuel : Nat) (url : String) (stream records stream' : List Article),
      fetchLoop source fuel url (addArticles [] stream).1
          (addArticles [] stream).2 stream = some (FetchOutcome.ok records, stream') →
      records = dedupAll stream' := by
  intro fuel
  induction fuel with
  | zero => intro url stream records stream' h; simp [fetchLoop] at h
  | succ n ih =>
    intro url stream records stream' h
    rcases hs : source url with page | _
    case failure => simp [fetchLoop, hs] at h
    case success =>
      rcases hart : page.articles with _ | arts
      · simp [fetchLoop, hs, hart] at h
      · simp only [fetchLoop, hs, hart] at h
        have happ := addArticles_append stream arts []
        have h3 : (addArticles [] stream).1 ++
            (addArticles (addArticles [] stream).2 arts).1 =
            (addArticles [] (stream ++ arts)).1 := by rw [happ]
        have h4 : (addArticles (addArticles [] stream).2 arts).2 =
            (addArticles [] (stream ++ arts)).2 := by rw [happ]
        split at h
        · simp only [Option.some.injEq, Prod.mk.injEq,
            FetchOutcome.ok.injEq] at h
          obtain ⟨h1, h2⟩ := h
          subst h2
          subst h1
          rw [h3]
          show dedupAll ((addArticles [] (stream ++ arts)).1) =
            dedupAll (stream ++ arts)
          unfold dedupAll
          rw [addArticles_self]
        · split at h
          · rw [h3, h4] at h
            exact ih _ (stream ++ arts) records stream' h
          · simp only [Option.some.injEq, Prod.mk.injEq,
              FetchOutcome.ok.injEq] at h
            obtain ⟨h1, h2⟩ := h
            subst h2
            subst h1
            rw [h3]
            show dedupAll ((addArticles [] (stream ++ arts)).1) =
              dedupAll (stream ++ arts)
            unfold dedupAll
            rw [addArticles_self]

/-- C2: dedup invariant of `fetch_articles` (src/scraper.py lines 107-112
and 139-146).  Whenever a fetch returns normally and some record id occurs
at least twice in the stream of records delivered across the fetched pages,
the returned list holds exactly one record with that id, namely the one at
the id's first occurrence in fetch order. -/
theorem fetch_articles_dedup_first (source : String → PageFetch) (fuel : Nat)
    (url0 : String) (records stream : List Article) (i : String)
    (hfetch : fetch_articles source fuel url0 =
      some (FetchOutcome.ok records, stream))
    (htwice : 2 ≤ (stream.filter (fun a => decide (a.id = some i))).length) :
    (records.filter (fun a => decide (a.id = some i))).length = 1 ∧
    records.filter (fun a => decide (a.id = some i)) =
      (stream.filter (fun a => decide (a.id = some i))).take 1 := by
  have hrec : records = dedupAll stream :=
    fetchLoop_ok_dedup source fuel url0 [] records stream
      (by simpa [fetch_articles, addArticles] using hfetch)
  have hfil : records.filter (fun a => decide (a.id = some i)) =
      (stream.filter (fun a => decide (a.id = some i))).take 1 := by
    rw [hrec]
    have h := addArticles_filter i stream []
    simpa [dedupAll] using h
  refine ⟨?_, hfil⟩
  rw [hfil, List.length_take]
  omega

/-- Witness for C2: a two-page fetch in which id 1 is delivered on both
pages; the result keeps only its first occurrence. -/
theorem fetch_articles_dedup_first_witness :
    (fetch_articles
        (fun u => if u = "pageA" then
            PageFetch.success (Page.mk
              (some [Article.mk (some "1") (some "t1"),
                     Article.mk (some "2") none]) true (some "pageB"))
          else if u = "pageB" then
            PageFetch.success (Page.mk
              (some [Article.mk (some "1") (some "dup")]) false none)
          else PageFetch.failure) 3 "pageA" =
      some (FetchOutcome.ok
        [Article.mk (some "1") (some "t1"), Article.mk (some "2") none],
        [Article.mk (some "1") (some "t1"), Article.mk (some "2") none,
         Article.mk (some "1") (some "dup")])) ∧
    2 ≤ (List.filter (fun a => decide (a.id = some "1"))
        [Article.mk (some "1") (some "t1"), Article.mk (some "2") none,
         Article.mk (some "1") (some "dup")]).length ∧
    ((List.filter (fun a => decide (a.id = some "1"))
        [Article.mk (some "1") (some "t1"),
         Article.mk (some "2") none]).length = 1 ∧
     List.filter (fun a => decide (a.id = some "1"))
        [Article.mk (some "1") (some "t1"), Article.mk (some "2") none] =
      (List.filter (fun a => decide (a.id = some "1"))
        [Article.mk (some "1") (some "t1"), Article.mk (some "2") none,
         Article.mk (some "1") (some "dup")]).take 1) :=
  ⟨by decide, by decide,
   fetch_articles_dedup_first
     (fun u => if u = "pageA" then
         PageFetch.success (Page.mk
           (some [Article.mk (some "1") (some "t1"),
                  Article.mk (some "2") none]) true (some "pageB"))
       else if u = "pageB" then
         PageFetch.success (Page.mk
           (some [Article.mk (some "1") (some "dup")]) false none)
       else PageFetch.failure) 3 "pageA"
     [Article.mk (some "1") (some "t1"), Article.mk (some "2") none]
     [Article.mk (some "1") (some "t1"), Article.mk (some "2") none,
      Article.mk (some "1") (some "dup")] "1" (by decide) (by decide)⟩

/-- C3: cycle guard of `fetch_articles` (src/scraper.py lines 122-127).
When the page fetched at `url` carries a "next" link equal to `url`
itself, the loop stops at that page without raising: it returns `ok` with
the deduplicated records collected up through and including that page,
from any intermediate loop state (so at any page index N). -/
theorem fetchLoop_cycle_guard (source : String → PageFetch) (fuel : Nat)
    (url : String) (results : List Article) (seen : List String)
    (stream : List Article) (page : Page) (arts : List Article)
    (hs : source url = PageFetch.success page)
    (hart : page.articles = some arts)
    (hnext : page.next = some url) :
    fetchLoop source (fuel + 1) url results seen stream =
      some (FetchOutcome.ok (dedupAll (results ++ (addArticles seen arts).1)),
        stream ++ arts) := by
  by_cases hurl : url = ""
  · subst hurl
    have hnf : nextTruthy (some "") = false := by decide
    simp [fetchLoop, hs, hart, hnext, hnf]
  · have hnt : nextTruthy (some url) = true := by simp [nextTruthy, hurl]
    simp [fetchLoop, hs, hart, hnext, hnt]

/-- Witness for C3: a single page whose "next" link equals the URL it was
fetched from; the fetch stops there and returns that page's records. -/
theorem fetchLoop_cycle_guard_witness :
    ((fun _ : String => PageFetch.success
        (Page.mk (some [Article.mk (some "7") none]) true (some "loop")))
          "loop" =
      PageFetch.success
        (Page.mk (some [Article.mk (some "7") none]) true (some "loop"))) ∧
    ((Page.mk (some [Article.mk (some "7") none]) true
        (some "loop")).articles = some [Article.mk (some "7") none]) ∧
    ((Page.mk (some [Article.mk (some "7") none]) true (some "loop")).next =
      some "loop") ∧
    fetchLoop (fun _ : String => PageFetch.success
        (Page.mk (some [Article.mk (some "7") none]) true (some "loop")))
        (0 + 1) "loop" [] [] [] =
      some (FetchOutcome.ok
        (dedupAll ([] ++ (addArticles [] [Article.mk (some "7") none]).1)),
        [] ++ [Article.mk (some "7") none]) :=
  ⟨rfl, rfl, rfl,
   fetchLoop_cycle_guard
     (fun _ : String => PageFetch.success
       (Page.mk (some [Article.mk (some "7") none]) true (some "loop")))
     0 "loop" [] [] []
     (Page.mk (some [Article.mk (some "7") none]) true (some "loop"))
     [Article.mk (some "7") none] rfl rfl rfl⟩

/-- C9: records without an id are silently omitted (src/scraper.py lines
107-112).  A normal fetch returns only records whose id is present, and
the result is unchanged if the id-less records are erased from the
delivered stream — they are dropped without raising. -/
theorem fetch_articles_omits_idless (source : String → PageFetch) (fuel : Nat)
    (url0 : String) (records stream : List Article)
    (hfetch : fetch_articles source fuel url0 =
      some (FetchOutcome.ok records, stream)) :
    (∀ a ∈ records, a.id.isSome) ∧
    records = dedupAll (stream.filter (fun a => a.id.isSome)) := by
  have hrec : records = dedupAll stream :=
    fetchLoop_ok_dedup source fuel url0 [] records stream
      (by simpa [fetch_articles, addArticles] using hfetch)
  constructor
  · intro a ha
    refine addArticles_id_isSome stream [] a ?_
    have : a ∈ dedupAll stream := hrec ▸ ha
    simpa [dedupAll] using this
  · rw [hrec]
    show dedupAll stream = dedupAll (stream.filter (fun a => a.id.isSome))
    simp only [dedupAll]
    rw [addArticles_filter_id]

/-- Witness for C9: a page holding one id-less record followed by one
record with an id; the fetch returns only the latter and raises nothing. -/
theorem fetch_articles_omits_idless_witness :
    (fetch_articles
        (fun _ : String => PageFetch.success
          (Page.mk (some [Article.mk none (some "no-id"),
                          Article.mk (some "9") none]) false none))
        1 "base" =
      some (FetchOutcome.ok [Article.mk (some "9") none],
        [Article.mk none (some "no-id"), Article.mk (some "9") none])) ∧
    ((∀ a ∈ [Article.mk (some "9") none], a.id.isSome) ∧
     [Article.mk (some "9") none] =
      dedupAll ([Article.mk none (some "no-id"),
                 Article.mk (some "9") none].filter (fun a => a.id.isSome))) :=
  ⟨by decide,
   fetch_articles_omits_idless
     (fun _ : String => PageFetch.success
       (Page.mk (some [Article.mk none (some "no-id"),
                       Article.mk (some "9") none]) false none))
     1 "base" [Article.mk (some "9") none]
     [Article.mk none (some "no-id"), Article.mk (some "9") none]
     (by decide)⟩

/-- C6: retry ceiling on HTTP 429 (src/scraper.py lines 43-65).  If every
GET for the URL answers 429, `_get_with_retries` raises the
too-many-429s RuntimeError (the spec's SourceUnavailable, which
propagates out of `fetch_articles`) after issuing exactly 5 requests —
the configured ceiling — and not before, and each of the four retries is
preceded by a sleep of the previous response's Retry-After value,
defaulting to 5 seconds when the header is absent. -/
theorem get_with_retries_429_ceiling (responses : Nat → HttpResponse)
    (fuel : Nat) (h429 : ∀ n, (responses n).status = 429) (hfuel : 5 ≤ fuel) :
    get_with_retries responses fuel =
      some (GetResult.tooMany429, 5,
        [(responses 0).retryAfter.getD 5, (responses 1).retryAfter.getD 5,
         (responses 2).retryAfter.getD 5, (responses 3).retryAfter.getD 5]) := by
  obtain ⟨k, rfl⟩ : ∃ k, fuel = k + 5 := ⟨fuel - 5, by omega⟩
  have e : k + 5 = ((((k + 1) + 1) + 1) + 1) + 1 := by omega
  rw [get_with_retries, e]
  simp [getWithRetries, h429, max_429_retries]

/-- Witness for C6: a source answering 429 with no Retry-After header to
every request; the failure arrives after request 5 with four default
5-second sleeps. -/
theorem get_with_retries_429_ceiling_witness :
    (∀ n : Nat, ((fun _ : Nat => HttpResponse.mk 429 none) n).status = 429) ∧
    5 ≤ 5 ∧
    get_with_retries (fun _ : Nat => HttpResponse.mk 429 none) 5 =
      some (GetResult.tooMany429, 5, [5, 5, 5, 5]) :=
  ⟨fun _ => rfl, by decide,
   get_with_retries_429_ceiling (fun _ : Nat => HttpResponse.mk 429 none) 5
     (fun _ => rfl) (by decide)⟩

theorem foldl_writes_no_touch :
    ∀ (ws : List (String × String)) (f : String → Option String) (q : String),
      (∀ (k : Nat) (hk : k < ws.length), (ws.get ⟨k, hk⟩).1 ≠ q) →
      ws.foldl (fun fs w q' => if q' = w.1 then some w.2 else fs q') f q =
        f q := by
  intro ws
  induction ws with
  | nil => intro f q _; rfl
  | cons w rest ih =>
    intro f q hk
    have hw : w.1 ≠ q := hk 0 (by simp)
    have hqw : ¬ q = w.1 := fun h => hw h.symm
    have hrest : ∀ (k : Nat) (hkk : k < rest.length),
        (rest.get ⟨k, hkk⟩).1 ≠ q := by
      intro k hkk
      exact hk (k + 1) (by simpa using Nat.succ_lt_succ hkk)
    have hstep := ih (fun q' => if q' = w.1 then some w.2 else f q') q hrest
    simpa [hqw] using hstep

theorem foldl_writes_last :
    ∀ (ws : List (String × String)) (f : String → Option String) (q : String)
      (j : Nat) (hj : j < ws.length),
      (ws.get ⟨j, hj⟩).1 = q →
      (∀ (k : Nat) (hk : k < ws.length), j < k → (ws.get ⟨k, hk⟩).1 ≠ q) →
      ws.foldl (fun fs w q' => if q' = w.1 then some w.2 else fs q') f q =
        some (ws.get ⟨j, hj⟩).2 := by
  intro ws
  induction ws with
  | nil => intro f q j hj; exact absurd hj (by simp)
  | cons w rest ih =>
    intro f q j hj hq hlast
    cases j with
    | zero =>
      have hrest : ∀ (k : Nat) (hk : k < rest.length),
          (rest.get ⟨k, hk⟩).1 ≠ q := by
        intro k hk
        exact hlast (k + 1) (by simpa using Nat.succ_lt_succ hk)
          (Nat.succ_pos k)
      simp only [List.foldl_cons]
      rw [foldl_writes_no_touch rest
        (fun q' => if q' = w.1 then some w.2 else f q') q hrest]
      have hqw : q = w.1 := hq.symm
      simp [hqw]
    | succ jj =>
      have hj' : jj < rest.length := Nat.lt_of_succ_lt_succ (by simpa using hj)
      have hq' : (rest.get ⟨jj, hj'⟩).1 = q := hq
      have hlast' : ∀ (k : Nat) (hk : k < rest.length), jj < k →
          (rest.get ⟨k, hk⟩).1 ≠ q := by
        intro k hk hjk
        exact hlast (k + 1) (by simpa using Nat.succ_lt_succ hk)
          (Nat.succ_lt_succ hjk)
      simpa using ih (fun q' => if q' = w.1 then some w.2 else f q') q jj hj'
        hq' hlast'

/-- C10: slug collisions clobber earlier documents (src/scraper.py lines
33-41 with src/markdown_converter.py `slugify`).  When the records at
positions i < j of a fetch result carry titles whose slugs coincide and
are non-empty, both are written to the same file path with no
disambiguation; and if no later record writes to that path again, the
surviving content at that path is the rendering of record j — record i's
document is lost. -/
theorem save_articles_slug_collision (render : Article → String)
    (articles : List Article) (i j : Nat) (hi : i < articles.length)
    (hj : j < articles.length) (ti tj : String) (hij : i < j)
    (hti : (articles.get ⟨i, hi⟩).title = some ti)
    (htj : (articles.get ⟨j, hj⟩).title = some tj)
    (hslug : slugify ti = slugify tj) (hne : slugify tj ≠ "") :
    savePath i (articles.get ⟨i, hi⟩) = savePath j (articles.get ⟨j, hj⟩) ∧
    ((∀ (k : Nat) (hk : k < articles.length), j < k →
        savePath k (articles.get ⟨k, hk⟩) ≠
          savePath j (articles.get ⟨j, hj⟩)) →
      applyWrites (save_articles_as_markdown render articles)
          (savePath j (articles.get ⟨j, hj⟩)) =
        some (render (articles.get ⟨j, hj⟩))) := by
  have hnei : slugify ti ≠ "" := by rw [hslug]; exact hne
  have hsp : ∀ (n : Nat) (a : Article) (t : String), a.title = some t →
      slugify t ≠ "" → savePath n a = "articles/" ++ slugify t ++ ".md" := by
    intro n a t ht hn
    simp [savePath, ht, hn]
  have hpi : savePath i (articles.get ⟨i, hi⟩) =
      "articles/" ++ slugify ti ++ ".md" := hsp i _ ti hti hnei
  have hpj : savePath j (articles.get ⟨j, hj⟩) =
      "articles/" ++ slugify tj ++ ".md" := hsp j _ tj htj hne
  have hlen : (save_articles_as_markdown render articles).length =
      articles.length := by
    simp [save_articles_as_markdown]
  have hget : ∀ (k : Nat) (hk : k < articles.length)
      (hk2 : k < (save_articles_as_markdown render articles).length),
      (save_articles_as_markdown render articles).get ⟨k, hk2⟩ =
        (savePath k (articles.get ⟨k, hk⟩),
         render (articles.get ⟨k, hk⟩)) := by
    intro k hk hk2
    simp [save_articles_as_markdown, List.get_eq_getElem, List.getElem_map,
      List.getElem_enum]
  refine ⟨by rw [hpi, hpj, hslug], ?_⟩
  intro hlast
  have hj2 : j < (save_articles_as_markdown render articles).length := by
    rw [hlen]; exact hj
  have hq : ((save_articles_as_markdown render articles).get ⟨j, hj2⟩).1 =
      savePath j (articles.get ⟨j, hj⟩) := by
    rw [hget j hj hj2]
  have hlast2 : ∀ (k : Nat)
      (hk : k < (save_articles_as_markdown render articles).length), j < k →
      ((save_articles_as_markdown render articles).get ⟨k, hk⟩).1 ≠
        savePath j (articles.get ⟨j, hj⟩) := by
    intro k hk hjk
    have hk' : k < articles.length := by rw [← hlen]; exact hk
    rw [hget k hk' hk]
    exact hlast k hk' hjk
  have hm := foldl_writes_last (save_articles_as_markdown render articles)
    (fun _ => none) (savePath j (articles.get ⟨j, hj⟩)) j hj2 hq hlast2
  show (save_articles_as_markdown render articles).foldl
      (fun fs w q' => if q' = w.1 then some w.2 else fs q') (fun _ => none)
      (savePath j (articles.get ⟨j, hj⟩)) =
    some (render (articles.get ⟨j, hj⟩))
  rw [hm, hget j hj hj2]

/-- Witness for C10: two records whose titles both slugify to
hello_world; both writes target the same path and the survivor is the
second record's rendering. -/
theorem save_articles_slug_collision_witness :
    slugify "Hello, World" = slugify "hello world!" ∧
    slugify "hello world!" ≠ "" ∧
    savePath 0 (Article.mk (some "1") (some "Hello, World")) =
      savePath 1 (Article.mk (some "2") (some "hello world!")) ∧
    applyWrites (save_articles_as_markdown (fun a => a.id.getD "?")
        [Article.mk (some "1") (some "Hello, World"),
         Article.mk (some "2") (some "hello world!")])
      (savePath 1 (Article.mk (some "2") (some "hello world!"))) =
      some "2" := by
  have h := save_articles_slug_collision (fun a => a.id.getD "?")
    [Article.mk (some "1") (some "Hello, World"),
     Article.mk (some "2") (some "hello world!")]
    0 1 (by decide) (by decide) "Hello, World" "hello world!" (by decide)
    rfl rfl (by decide) (by decide)
  refine ⟨by decide, by decide, h.1, h.2 ?_⟩
  intro k hk hjk
  simp only [List.length_cons, List.length_nil] at hk
  exact absurd hjk (by omega)

/-- C5 fails on the code: the hash record is not replaced atomically.
The write at src/main.py lines 116-117 opens the record file itself in
write mode — truncating it in place — and then writes the new map, with
no temporary file and no rename.  Interrupting between the truncation and
the write leaves an empty file that is neither the prior map nor the new
one, refuting the claimed never-observe-a-partial-map property at this
concrete input (prior content oldhashes, new payload newhashes). -/
theorem persistHashRecord_not_atomic :
    ¬ persistAtomic (persistHashRecord "newhashes") hashRecordPath
        "newhashes" := by
  intro h
  have hmem : (fun q => fsApply
      (fun q' => if q' = hashRecordPath then some "oldhashes" else none)
      (FsOp.openTrunc hashRecordPath) q) ∈
      statesAfter
        (fun q' => if q' = hashRecordPath then some "oldhashes" else none)
        (persistHashRecord "newhashes") := by
    simp [statesAfter, persistHashRecord]
  have hcase := h
    (fun q' => if q' = hashRecordPath then some "oldhashes" else none) _ hmem
  have h1 : fsApply
      (fun q' => if q' = hashRecordPath then some "oldhashes" else none)
      (FsOp.openTrunc hashRecordPath) hashRecordPath = some "" := by
    simp [fsApply]
  rcases hcase with hc | hc
  · rw [h1] at hc
    exact absurd hc (by decide)
  · rw [h1] at hc
    exact absurd hc (by decide)

/-- C5 amended: the persistence step rewrites the hash-record file in
place — truncate, then write the new payload.  Its two interruption
points observe, in order, an empty record file and then the fully written
new payload: the prior map is destroyed before the new one is complete,
so the replacement is not atomic (src/main.py lines 116-117). -/
theorem persistHashRecord_truncate_then_write (fs0 : String → Option String)
    (payload : String) :
    (statesAfter fs0 (persistHashRecord payload)).map
        (fun fs => fs hashRecordPath) = [some "", some payload] := by
  simp [statesAfter, persistHashRecord, fsApply]
